import Mathlib

/-! sendx-backend: a caching crawl proxy (`main.go`)

A shallow embedding of the crawl admission code of `main.go`: the attribute
rewrite of `goqueryHandler`, the retry loop of `fetchWithRetryMechanism`, the
worker body `workers`, the request handler `crawler`, and the administrative
operations `adminInitializer`, `setWorkerFunc`, `setSpeedFunc`, `hourlyReset`.

Go strings are byte sequences; they are embedded as lists of byte values.
Go `int` is a 64-bit two's-complement integer; it is embedded as `Int` with
explicit wrap-around where the source does arithmetic.
-/

namespace SendX

/-! ## Strings -/

/-- A Go string: its bytes, in order. -/
abbrev GoString := List Nat

/-- The bytes of `"https"`. -/
def strHttps : GoString := [104, 116, 116, 112, 115]

/-- The bytes of `"https://"`. -/
def strHttpsScheme : GoString := [104, 116, 116, 112, 115, 58, 47, 47]

/-- The bytes of `"/"`. -/
def strSlash : GoString := [47]

/-- The bytes of `"ERRORS"`. -/
def strERRORS : GoString := [69, 82, 82, 79, 82, 83]

/-- Go conversion `string(b)` of a byte `b`: the UTF-8 encoding of the code
point `b` (one byte below 128, two bytes from 128 on). -/
def byteToString (b : Nat) : GoString :=
  if b < 128 then [b] else [192 + b / 64, 128 + b % 64]

/-! ## `goqueryHandler` (main.go 325-357) -/

/-- Lines 333-340: `finalStr`, built from the first five bytes of `srcAttr`
when it has at least five bytes, and empty otherwise. -/
def finalStr (srcAttr : GoString) : GoString :=
  if 5 ≤ srcAttr.length then
    (List.range 5).foldl (fun acc i => acc ++ byteToString (srcAttr.getD i 0)) []
  else []

/-- Lines 345-350: `strTo`, the prefix put before a rewritten attribute. -/
def strTo (URL srcAttr : GoString) : GoString :=
  match srcAttr with
  | [] => strHttpsScheme ++ URL
  | c :: _ => if c ≠ 47 then strHttpsScheme ++ URL ++ strSlash else strHttpsScheme ++ URL

/-- The value of attribute `attr` of one selected element after the callback of
`goqueryHandler` has run on it, for an element on which the attribute exists
with value `srcAttr` (lines 332-355). -/
def rewriteAttr (URL srcAttr : GoString) : GoString :=
  if finalStr srcAttr ≠ strHttps then strTo URL srcAttr ++ srcAttr else srcAttr

/-- The rewrite as the specification words it: a value that begins with
`https` is kept; any other value gets `https://{URL}`, then a slash unless the
value starts with one, then the value. -/
def rewriteSpec (URL srcAttr : GoString) : GoString :=
  if strHttps <+: srcAttr then srcAttr
  else if srcAttr.head? = some 47 then strHttpsScheme ++ URL ++ srcAttr
  else strHttpsScheme ++ URL ++ strSlash ++ srcAttr

/-- The rewrite with the slash inserted only before a non-empty value that
does not start with one. -/
def rewriteSpecNonEmpty (URL srcAttr : GoString) : GoString :=
  if strHttps <+: srcAttr then srcAttr
  else if srcAttr ≠ [] ∧ srcAttr.head? ≠ some 47 then
    strHttpsScheme ++ URL ++ strSlash ++ srcAttr
  else strHttpsScheme ++ URL ++ srcAttr

/-! ## The document handled by `goqueryHandler`

The parser and serialiser of the `goquery` library are outside `main.go`; a
document is embedded as the sequence of its elements, each with a tag name and
its attributes in order. -/

/-- One element of a parsed document. -/
structure Element where
  tag : GoString
  attrs : List (GoString × GoString)

/-- A parsed document: its elements in document order. -/
abbrev Document := List Element

/-- Library call `element.Attr(attr)`: the value of the first attribute named `attr`. -/
def Element.Attr (e : Element) (attr : GoString) : Option GoString :=
  (e.attrs.find? (fun kv => kv.1 = attr)).map Prod.snd

/-- Replace the value of the first attribute named `attr`. -/
def setFirst (attr val : GoString) : List (GoString × GoString) → List (GoString × GoString)
  | [] => []
  | kv :: rest => if kv.1 = attr then (attr, val) :: rest else kv :: setFirst attr val rest

/-- Library call `element.SetAttr(attr, val)` on an element that has the attribute. -/
def Element.SetAttr (e : Element) (attr val : GoString) : Element :=
  { e with attrs := setFirst attr val e.attrs }

/-- Lines 325-357: every element named `tag` that has attribute `attr` gets the
attribute rewritten; all other elements are left alone. -/
def goqueryHandler (doc : Document) (tag attr URL : GoString) : Document :=
  doc.map (fun element =>
    if element.tag = tag then
      match element.Attr attr with
      | some srcAttr =>
        if finalStr srcAttr ≠ strHttps then
          element.SetAttr attr (strTo URL srcAttr ++ srcAttr)
        else element
      | none => element
    else element)

/-- The bytes of `"img"`. -/
def strImg : GoString := [105, 109, 103]

/-- The bytes of `"script"`. -/
def strScript : GoString := [115, 99, 114, 105, 112, 116]

/-- The bytes of `"src"`. -/
def strSrc : GoString := [115, 114, 99]

/-- The bytes of `"srcset"`. -/
def strSrcset : GoString := [115, 114, 99, 115, 101, 116]

/-- Lines 298-320: `modifyHtml`, with the library parser `parse` and the library
serialiser `render` as parameters. The error value it returns is only logged by
its caller and is left out. -/
def modifyHtml (parse : GoString → Document) (render : Document → GoString)
    (html URL : GoString) : GoString :=
  let doc := parse html
  let doc := goqueryHandler doc strImg strSrc URL
  let doc := goqueryHandler doc strImg strSrcset URL
  let doc := goqueryHandler doc strScript strSrc URL
  render doc

/-! ## Integers -/

/-- Two's-complement wrap-around of a 64-bit Go `int`. -/
def wrap64 (x : Int) : Int := (x + 2 ^ 63) % 2 ^ 64 - 2 ^ 63

/-- Result of the digit loop of `strconv.ParseUint`. -/
inductive UintResult where
  | ok (n : Nat)
  | syntaxError
  | rangeError

/-- The digit loop of the library function `strconv.ParseUint` for base 10 and
64 bits: bytes are consumed left to right, a byte that is not a decimal digit is
a syntax error, and a value above `2^64 - 1` is a range error. -/
def parseUintLoop : Nat → List Nat → UintResult
  | n, [] => .ok n
  | n, c :: cs =>
    if 48 ≤ c ∧ c ≤ 57 then
      if (2 ^ 64 - 1) / 10 + 1 ≤ n then .rangeError
      else if 2 ^ 64 - 1 < n * 10 + (c - 48) then .rangeError
      else parseUintLoop (n * 10 + (c - 48)) cs
    else .syntaxError

/-- Sign and magnitude to a 64-bit value, clamped as `strconv.ParseInt` does. -/
def clampInt64 (neg : Bool) (un : Nat) : Int :=
  if neg then (if 2 ^ 63 < un then -(2 ^ 63) else -(un : Int))
  else (if 2 ^ 63 ≤ un then 2 ^ 63 - 1 else (un : Int))

/-- The value returned by the library function `strconv.Atoi` (its error is
discarded by every caller in `main.go`): an optional sign and decimal digits;
`0` on a syntax error, including the empty string; the nearest 64-bit bound on
overflow. -/
def Atoi (s : GoString) : Int :=
  match s with
  | [] => 0
  | c :: rest =>
    let neg : Bool := c = 45
    let digits := if c = 45 ∨ c = 43 then rest else s
    match digits with
    | [] => 0
    | _ :: _ =>
      match parseUintLoop 0 digits with
      | .ok n => clampInt64 neg n
      | .syntaxError => 0
      | .rangeError => clampInt64 neg (2 ^ 64 - 1)

/-- The product `pagesPerHour * (numNonPayingWorker + numPayingWorker)` in 64-bit
Go arithmetic (lines 47, 105, 144, 433). -/
def computeLimit (pagesPerHour numNonPayingWorker numPayingWorker : Int) : Int :=
  wrap64 (pagesPerHour * wrap64 (numNonPayingWorker + numPayingWorker))

/-! ## Process state -/

/-- A buffered Go channel of strings: its capacity and the queued values, oldest first. -/
structure Chan where
  cap : Nat
  buf : List GoString

/-- A goroutine working for one request: the arguments `URL` and `workerChan`
(a reference to a channel) of `workers`, and the `paying` flag of the request. -/
structure Worker where
  URL : GoString
  workerChan : Nat
  paying : Bool
  deriving DecidableEq

/-- The package-level variables of `main.go` (lines 18-48), the Redis store, the
channels allocated so far, and the goroutines in flight. A `cache` entry `none`
is a read that reports an error: a missing key or an unreachable service. -/
structure State where
  cache : GoString → Option GoString
  numNonPayingWorker : Int
  numPayingWorker : Int
  payingWorkers : Nat
  nonPayingWorkers : Nat
  results : GoString → Option Bool
  pagesPerHour : Int
  limit : Int
  heap : Nat → Chan
  nextChan : Nat
  blocked : List Worker
  running : List Worker

/-- The bytes of `"sendX-numPayingWorker"`. -/
def keyNumPayingWorker : GoString :=
  [115, 101, 110, 100, 88, 45, 110, 117, 109, 80, 97, 121, 105, 110, 103, 87, 111, 114, 107,
    101, 114]

/-- The bytes of `"sendX-numNonPayingWorker"`. -/
def keyNumNonPayingWorker : GoString :=
  [115, 101, 110, 100, 88, 45, 110, 117, 109, 78, 111, 110, 80, 97, 121, 105, 110, 103, 87,
    111, 114, 107, 101, 114]

/-- The bytes of `"sendX-workerSpeed"`. -/
def keyWorkerSpeed : GoString :=
  [115, 101, 110, 100, 88, 45, 119, 111, 114, 107, 101, 114, 83, 112, 101, 101, 100]

/-- The state after the package-level initialisers (lines 18-48) have run, for a
given content of the Redis store: channel 0 is `payingWorkers`, channel 1 is
`nonPayingWorkers`. -/
def initState (cache : GoString → Option GoString) : State :=
  { cache := cache
    numNonPayingWorker := 2
    numPayingWorker := 5
    payingWorkers := 0
    nonPayingWorkers := 1
    results := fun _ => none
    pagesPerHour := 10
    limit := computeLimit 10 2 5
    heap := fun c => if c = 0 then ⟨5, []⟩ else if c = 1 then ⟨2, []⟩ else ⟨0, []⟩
    nextChan := 2
    blocked := []
    running := [] }

/-- How a function of `main.go` ended: it returned, a run-time panic unwound it,
or `log.Fatal` ended the process. The state is the one at that moment. -/
inductive Exec where
  | done (s : State)
  | panicked (s : State)
  | fatal (s : State)

/-- Whether an outcome is a recovered run-time panic. -/
def Exec.isPanicked : Exec → Bool
  | .panicked _ => true
  | _ => false

/-- The state carried by an outcome. -/
def Exec.state : Exec → State
  | .done s => s
  | .panicked s => s
  | .fatal s => s

/-- The largest size the run time accepts in `make(chan string, n)`: the buffer
of `n` strings of 16 bytes and the 96-byte channel header must fit in the
`2^48` bytes of the heap address space of a 64-bit platform. -/
def maxChanSize : Nat := (2 ^ 48 - 96) / 16

/-- A size that `make(chan string, n)` accepts. -/
def acceptedSize (n : Int) : Prop := 0 ≤ n ∧ n ≤ (maxChanSize : Int)

/-- Built-in `make(chan string, n)`: a negative size and a size above
`maxChanSize` panic with `makechan: size out of range`. An accepted size for
which the machine has no memory ends the process; such a run has no later
state and is not modelled. -/
def makeChan (n : Int) : Option Chan :=
  if n < 0 ∨ (maxChanSize : Int) < n then none else some ⟨n.toNat, []⟩

/-- Store a newly made channel and return its reference. -/
def State.alloc (s : State) (c : Chan) : State × Nat :=
  ({ s with heap := Function.update s.heap s.nextChan c, nextChan := s.nextChan + 1 },
    s.nextChan)

/-- Library call `client.Get(key).Result()`: the value is the empty string when
the read reports an error. -/
def State.get (s : State) (key : GoString) : GoString :=
  (s.cache key).getD []

/-- A successful `client.Set(key, value, ttl)`. Expiry is not modelled. -/
def State.set (s : State) (key value : GoString) : State :=
  { s with cache := Function.update s.cache key (some value) }

/-! ## Administrative operations -/

/-- Lines 101-107: one iteration of the loop of `hourlyReset`. -/
def hourlyReset (s : State) : State :=
  { s with limit := computeLimit s.pagesPerHour s.numNonPayingWorker s.numPayingWorker }

/-- Lines 110-145: `adminInitializer`. -/
def adminInitializer (s : State) : Exec :=
  let setPayingWokers := s.get keyNumPayingWorker
  let setNonPayingWokers := s.get keyNumNonPayingWorker
  let s := { s with numPayingWorker := Atoi setPayingWokers }
  let s := { s with numNonPayingWorker := Atoi setNonPayingWokers }
  let setSpeed := s.get keyWorkerSpeed
  let s := { s with pagesPerHour := Atoi setSpeed }
  match makeChan s.numPayingWorker with
  | none => .panicked s
  | some c =>
    let s := { (s.alloc c).1 with payingWorkers := (s.alloc c).2 }
    match makeChan s.numNonPayingWorker with
    | none => .panicked s
    | some c =>
      let s := { (s.alloc c).1 with nonPayingWorkers := (s.alloc c).2 }
      .done { s with
        limit := computeLimit s.pagesPerHour s.numNonPayingWorker s.numPayingWorker }

/-- Lines 360-407: `setWorkerFunc` for the query values `setPayingWorker` and
`setNonPayingWorker`; `ok1` and `ok2` tell whether the first and the second
`client.Set` succeed. -/
def setWorkerFunc (s : State) (setPayingWorker setNonPayingWorker : GoString)
    (ok1 ok2 : Bool) : Exec :=
  let s := { s with numPayingWorker := Atoi setPayingWorker }
  let s := { s with numNonPayingWorker := Atoi setNonPayingWorker }
  if !ok1 then .fatal s
  else
    let s := s.set keyNumPayingWorker setPayingWorker
    if !ok2 then .fatal s
    else
      let s := s.set keyNumNonPayingWorker setNonPayingWorker
      match makeChan s.numPayingWorker with
      | none => .panicked s
      | some c =>
        let s := { (s.alloc c).1 with payingWorkers := (s.alloc c).2 }
        match makeChan s.numNonPayingWorker with
        | none => .panicked s
        | some c =>
          .done { (s.alloc c).1 with nonPayingWorkers := (s.alloc c).2 }

/-- Lines 410-437: `setSpeedFunc` for the query value `setWorkerSpeed`; `ok`
tells whether `client.Set` succeeds (a failure is only printed). -/
def setSpeedFunc (s : State) (setWorkerSpeed : GoString) (ok : Bool) : State :=
  let s := { s with pagesPerHour := Atoi setWorkerSpeed }
  let s := if ok then s.set keyWorkerSpeed setWorkerSpeed else s
  { s with limit := computeLimit s.pagesPerHour s.numNonPayingWorker s.numPayingWorker }

/-- A restart of the process against the same Redis store: the package-level
initialisers run again, then `connectRedis` calls `adminInitializer` (line 99). -/
def restart (s : State) : Exec :=
  adminInitializer (initState s.cache)

/-! ## The crawl -/

/-- What one `c.Visit` of the `colly` collector does: `body` is the response
body given to the `OnResponse` callback when the callback runs, and `err` tells
whether `Visit` returned an error. -/
structure Attempt where
  body : Option GoString
  err : Bool

/-- The outside world as one run of `workers` meets it: the outcome of the
`i`-th visit of a target, the parser and serialiser of the HTML library, and
whether `client.Set` succeeds. -/
structure Env where
  visit : GoString → Nat → Attempt
  parse : GoString → Document
  render : Document → GoString
  setOk : Bool

/-- The loop of lines 261-289 with `k` iterations left, loop counter `i` and the
current value of the variable `html`; the result is the pair `(html, errs)`. -/
def fetchLoop (visit : Nat → Attempt) : Nat → Nat → GoString → GoString × GoString
  | 0, _, html => (html, strERRORS)
  | k + 1, i, html =>
    let html :=
      match (visit i).body with
      | some b => if b ≠ [] then b else html
      | none => html
    if (visit i).err then fetchLoop visit k (i + 1) html
    else if html ≠ [] then (html, [])
    else fetchLoop visit k (i + 1) html

/-- Lines 255-293: `fetchWithRetryMechanism`, ten visits of `"https://" + URL`. -/
def fetchWithRetryMechanism (env : Env) (URL : GoString) : GoString × GoString :=
  fetchLoop (env.visit (strHttpsScheme ++ URL)) 10 1 []

/-- Send `v` on channel `c` (`workerChan <- URL`): `none` when the buffer is
full, in which case the sender blocks. -/
def State.send (s : State) (c : Nat) (v : GoString) : Option State :=
  if (s.heap c).buf.length < (s.heap c).cap then
    some { s with heap := Function.update s.heap c ⟨(s.heap c).cap, (s.heap c).buf ++ [v]⟩ }
  else none

/-- Receive from channel `c` (`<-workerChan`): `none` when the buffer is empty,
in which case the receiver blocks. -/
def State.recv (s : State) (c : Nat) : Option State :=
  match (s.heap c).buf with
  | [] => none
  | _ :: rest =>
    some { s with heap := Function.update s.heap c ⟨(s.heap c).cap, rest⟩ }

/-- Lines 213-251: `workers`, run from its first statement to its return. The
result is `none` when the final receive blocks. -/
def workers (env : Env) (s : State) (URL : GoString) (workerChan : Nat) : Option State :=
  let s := { s with limit := wrap64 (s.limit - 1) }
  let (html, errs) := fetchWithRetryMechanism env URL
  if errs = strERRORS then some s
  else
    let modifiedHtml := modifyHtml env.parse env.render html URL
    if !env.setOk then some s
    else
      let s := s.set URL modifiedHtml
      let s := { s with results := Function.update s.results URL (some true) }
      s.recv workerChan

/-- How far a call of `crawler` got before it starts to wait. -/
inductive Handled where
  | responded (status : Nat) (body : GoString)
  | dispatched (w : Worker)
  | blockedOnSend (w : Worker)
  deriving DecidableEq

/-- Lines 148-188: `crawler` up to the start of the worker goroutine. A body
written without a status is sent with status 200; a request whose send blocks
is parked in `blocked`. The Redis client is set before the server starts (lines
64, 94), so the panic of line 155 cannot occur. -/
def crawler (s : State) (URL : GoString) (paying : Bool) : State × Handled :=
  match s.cache URL with
  | some val => (s, .responded 200 val)
  | none =>
    if s.limit = 0 then (s, .responded 503 [])
    else
      let workerChan := if paying then s.payingWorkers else s.nonPayingWorkers
      let w : Worker := ⟨URL, workerChan, paying⟩
      match s.send workerChan URL with
      | none => ({ s with blocked := s.blocked ++ [w] }, .blockedOnSend w)
      | some s => ({ s with running := s.running ++ [w] }, .dispatched w)

/-- Lines 185-188 for a request parked on its send: once the channel it holds
has room, the send completes and its worker goroutine starts. -/
def resume (s : State) (i : Nat) : Option State :=
  match s.blocked.get? i with
  | none => none
  | some w =>
    match s.send w.workerChan w.URL with
    | none => none
    | some s => some { s with blocked := s.blocked.eraseIdx i, running := s.running ++ [w] }

/-- One iteration of the polling loop of lines 191-206 for `URL`: the response
body when the request is answered, and the state afterwards. -/
def crawlerPoll (s : State) (URL : GoString) : State × Option GoString :=
  if s.results URL = some true then
    match s.cache URL with
    | some val => ({ s with results := Function.update s.results URL none }, some val)
    | none => (s, none)
  else (s, none)

/-- The worker goroutine at position `i` of `running` runs to its return. -/
def finish (s : State) (i : Nat) (env : Env) : Option State :=
  match s.running.get? i with
  | none => none
  | some w =>
    match workers env s w.URL w.workerChan with
    | none => none
    | some s => some { s with running := s.running.eraseIdx i }

/-! ## Interleavings -/

/-- One atomic step of the process. -/
inductive Step where
  | request (URL : GoString) (paying : Bool)
  | resume (i : Nat)
  | finish (i : Nat) (env : Env)
  | poll (URL : GoString)
  | setWorkers (setPayingWorker setNonPayingWorker : GoString) (ok1 ok2 : Bool)
  | setSpeed (setWorkerSpeed : GoString) (ok : Bool)
  | tick

/-- The state after one step; `none` when the step cannot be taken (it blocks,
names no goroutine, or the process has ended). A panic inside an HTTP handler
is recovered by the server, which goes on with the state at the panic. -/
def step (s : State) : Step → Option State
  | .request URL paying => some (crawler s URL paying).1
  | .resume i => resume s i
  | .finish i env => finish s i env
  | .poll URL => some (crawlerPoll s URL).1
  | .setWorkers p n ok1 ok2 =>
    match setWorkerFunc s p n ok1 ok2 with
    | .done s => some s
    | .panicked s => some s
    | .fatal _ => none
  | .setSpeed v ok => some (setSpeedFunc s v ok)
  | .tick => some (hourlyReset s)

/-- The state after a sequence of steps. -/
def run (s : State) : List Step → Option State
  | [] => some s
  | t :: ts =>
    match step s t with
    | none => none
    | some s => run s ts

/-- The state in which the server starts to serve: `adminInitializer` has
returned (a panic there ends the process before any request). -/
def boot (cache : GoString → Option GoString) : Option State :=
  match adminInitializer (initState cache) with
  | .done s => some s
  | _ => none

/-- Number of worker goroutines in flight for a class. -/
def inFlight (s : State) (paying : Bool) : Nat :=
  s.running.countP (fun w => w.paying = paying)

/-- Number of worker goroutines in flight that hold channel `c`. -/
def holders (s : State) (c : Nat) : Nat :=
  s.running.countP (fun w => w.workerChan = c)

/-- Number of worker goroutines in flight for a class that hold channel `c`. -/
def inFlightOn (s : State) (paying : Bool) (c : Nat) : Nat :=
  s.running.countP (fun w => w.paying = paying ∧ w.workerChan = c)

/-- The channel a request of a class is given (lines 179-183). -/
def classChan (s : State) (paying : Bool) : Nat :=
  if paying then s.payingWorkers else s.nonPayingWorkers

/-- The configured capacity of a class. -/
def configured (s : State) (paying : Bool) : Int :=
  if paying then s.numPayingWorker else s.numNonPayingWorker

/-- Number of values queued on channel `c`. -/
def occupancy (s : State) (c : Nat) : Nat :=
  (s.heap c).buf.length

/-! ## Concrete inputs -/

/-- A Redis store with no key. -/
def emptyCache : GoString → Option GoString := fun _ => none

/-- A Redis store that holds the page `"b"` for the URL `"a"`. -/
def cacheWithA : GoString → Option GoString :=
  fun k => if k = [97] then some [98] else none

/-- A world in which every visit fails. -/
def envFetchFails : Env :=
  { visit := fun _ _ => ⟨none, true⟩
    parse := fun _ => []
    render := fun _ => []
    setOk := true }

/-- A world in which the first visit yields the body `"b"` but the cache write fails. -/
def envSetFails : Env :=
  { visit := fun _ _ => ⟨some [98], false⟩
    parse := fun _ => []
    render := fun _ => [98]
    setOk := false }

/-- A world in which the first visit yields the body `"b"` and the cache write succeeds. -/
def envOk : Env :=
  { visit := fun _ _ => ⟨some [98], false⟩
    parse := fun _ => []
    render := fun _ => [98]
    setOk := true }

/-- The state after the package-level initialisers and one paying request for
the URL `"a"` on an empty store: the request holds one slot of channel 0. -/
def stateOneCrawl : State :=
  (crawler (initState emptyCache) [97] true).1

/-- A Redis store configured with 2 paying workers, 1 non-paying worker and 10
pages per hour, and no cached page. -/
def cacheConfigured : GoString → Option GoString :=
  fun k =>
    if k = keyNumPayingWorker then some [50]
    else if k = keyNumNonPayingWorker then some [49]
    else if k = keyWorkerSpeed then some [49, 48]
    else none

/-- The bytes of `"9223372036854775807"`, the largest 64-bit integer. -/
def strMaxInt64 : GoString :=
  [57, 50, 50, 51, 51, 55, 50, 48, 51, 54, 56, 53, 52, 55, 55, 53, 56, 48, 55]

/-- The state in which the server starts on `cacheConfigured`. -/
def bootedState : State :=
  (adminInitializer (initState cacheConfigured)).state

/-- Two paying requests, for `"a"` and `"b"`, then
`/set-workers?setPayingWorkerTo=1&setNonPayingWorkerTo=1`, then a paying
request for `"c"`. -/
def traceResize : List Step :=
  [.request [97] true, .request [98] true, .setWorkers [49] [49] true true,
    .request [99] true]

/-- The state after `traceResize` from `bootedState`. -/
def resizedState : State :=
  (run bootedState traceResize).getD bootedState

/-! ## The channel invariant -/

/-- What every reachable state satisfies, channel by channel: the workers in
flight that hold a channel are at most the values queued on it, which are at
most its capacity; every reference in use is to an allocated channel. -/
structure InvCore (s : State) : Prop where
  hold : ∀ c, holders s c ≤ occupancy s c
  cap : ∀ c, occupancy s c ≤ (s.heap c).cap
  runFresh : ∀ w ∈ s.running, w.workerChan < s.nextChan
  blkFresh : ∀ w ∈ s.blocked, w.workerChan < s.nextChan
  curP : s.payingWorkers < s.nextChan
  curN : s.nonPayingWorkers < s.nextChan

/-- When both configured counts are sizes that `make` accepts, each class's
current channel has the configured count as its capacity. -/
def InvCfg (s : State) : Prop :=
  acceptedSize s.numPayingWorker → acceptedSize s.numNonPayingWorker →
    ((s.heap s.payingWorkers).cap : Int) = s.numPayingWorker ∧
    ((s.heap s.nonPayingWorkers).cap : Int) = s.numNonPayingWorker

/-! ## Lemmas on the rewrite -/

theorem byteToString_ascii (b : Nat) (h : b < 128) : byteToString b = [b] := by
  simp [byteToString, h]

theorem byteToString_append_eq_cons (b x : Nat) (t rest : GoString) (hx : x < 128) :
    byteToString b ++ t = x :: rest ↔ b = x ∧ t = rest := by
  unfold byteToString
  by_cases hb : b < 128
  · simp [hb]
  · simp only [hb, if_false, List.cons_append, List.cons.injEq]
    constructor
    · intro h; omega
    · intro h; omega

theorem finalStr_of_five (a b c d e : Nat) (r : GoString) :
    finalStr (a :: b :: c :: d :: e :: r) =
      byteToString a ++ (byteToString b ++ (byteToString c ++
        (byteToString d ++ (byteToString e ++ [])))) := by
  simp [finalStr, List.range, List.range.loop]

theorem finalStr_eq_https_iff (s : GoString) :
    finalStr s = strHttps ↔ strHttps <+: s := by
  rcases s with _ | ⟨a, _ | ⟨b, _ | ⟨c, _ | ⟨d, _ | ⟨e, r⟩⟩⟩⟩⟩
  · simp [finalStr, strHttps]
  · simp [finalStr, strHttps, List.prefix_cons_iff]
  · simp [finalStr, strHttps, List.prefix_cons_iff]
  · simp [finalStr, strHttps, List.prefix_cons_iff]
  · simp [finalStr, strHttps, List.prefix_cons_iff]
  · rw [finalStr_of_five]
    unfold strHttps
    rw [byteToString_append_eq_cons _ _ _ _ (by omega),
      byteToString_append_eq_cons _ _ _ _ (by omega),
      byteToString_append_eq_cons _ _ _ _ (by omega),
      byteToString_append_eq_cons _ _ _ _ (by omega),
      byteToString_append_eq_cons _ _ _ _ (by omega)]
    simp only [List.cons_prefix_cons, List.nil_prefix, and_true]
    constructor <;> (intro h; omega)

theorem rewriteAttr_of_https (URL s : GoString) (h : strHttps <+: s) :
    rewriteAttr URL s = s := by
  simp [rewriteAttr, (finalStr_eq_https_iff s).2 h]

theorem find_setFirst (attr val : GoString) (l : List (GoString × GoString))
    (v : GoString × GoString) (h : l.find? (fun kv => kv.1 = attr) = some v) :
    (setFirst attr val l).find? (fun kv => kv.1 = attr) = some (attr, val) := by
  induction l with
  | nil => simp at h
  | cons kv rest ih =>
    unfold setFirst
    by_cases hk : kv.1 = attr
    · simp [hk]
    · simp only [hk, if_false]
      rw [List.find?_cons_of_neg _ (by simpa using hk)] at h ⊢
      exact ih h

/-- On an element named `tag` whose attribute `attr` has the value `s`,
`goqueryHandler` leaves the attribute with the value `rewriteAttr URL s`. -/
theorem goqueryHandler_attr (e : Element) (tag attr URL s : GoString)
    (ht : e.tag = tag) (ha : e.Attr attr = some s) :
    (goqueryHandler [e] tag attr URL).map (fun x => x.Attr attr) =
      [some (rewriteAttr URL s)] := by
  have ha2 := ha
  unfold Element.Attr at ha2
  cases hf : e.attrs.find? (fun kv => kv.1 = attr) with
  | none => simp [hf] at ha2
  | some v =>
    by_cases hh : finalStr s = strHttps
    · simp [goqueryHandler, ht, ha, hh, rewriteAttr]
    · simp only [goqueryHandler, List.map_cons, List.map_nil, ht, if_true, ha, hh, ne_eq,
        not_false_eq_true, rewriteAttr]
      simp [Element.SetAttr, Element.Attr, find_setFirst attr _ e.attrs v hf]

/-! ## Claims on the attribute rewrite -/

/-- C7, as stated, fails: for the base URL `"a"` and the empty attribute value
(which neither begins with `https` nor starts with a slash) the code sets the
attribute to `"https://a"`, not to `"https://a/"`. -/
theorem rewriteAttr_empty_no_slash :
    ¬ (strHttps <+: ([] : GoString)) ∧ ([] : GoString).head? ≠ some 47 ∧
      rewriteAttr [97] [] = [104, 116, 116, 112, 115, 58, 47, 47, 97] ∧
      rewriteSpec [97] [] = [104, 116, 116, 112, 115, 58, 47, 47, 97, 47] ∧
      rewriteAttr [97] [] ≠ rewriteSpec [97] [] := by
  decide

/-- C7, amended: for every base URL and every attribute value, the attribute is
kept when the value begins with `https`; otherwise it becomes
`"https://" + URL + "/" + value` when the value is non-empty and does not start
with a slash, and `"https://" + URL + value` when it is empty or starts with a
slash. -/
theorem rewriteAttr_eq_rewriteSpecNonEmpty (URL srcAttr : GoString) :
    rewriteAttr URL srcAttr = rewriteSpecNonEmpty URL srcAttr := by
  unfold rewriteAttr rewriteSpecNonEmpty
  by_cases h : strHttps <+: srcAttr
  · simp [h, (finalStr_eq_https_iff srcAttr).2 h]
  · have hf : finalStr srcAttr ≠ strHttps := fun hf => h ((finalStr_eq_https_iff srcAttr).1 hf)
    cases srcAttr with
    | nil => simp [h, hf, strTo]
    | cons c r =>
      by_cases hc : c = 47
      · subst hc
        simp [h, hf, strTo]
      · simp [h, hf, strTo, hc, strSlash]

/-- C8: on a value that begins with `https` the rewrite returns the value, and
applied again to its result it returns the value again. -/
theorem rewriteAttr_idempotent_https (URL s : GoString) (h : strHttps <+: s) :
    rewriteAttr URL s = s ∧ rewriteAttr URL (rewriteAttr URL s) = s := by
  have h1 := rewriteAttr_of_https URL s h
  exact ⟨h1, by rw [h1, h1]⟩

/-- C8 at the base URL `"a"` and the value `"https://b"`. -/
theorem rewriteAttr_idempotent_https_witness :
    strHttps <+: [104, 116, 116, 112, 115, 58, 47, 47, 98] ∧
      rewriteAttr [97] [104, 116, 116, 112, 115, 58, 47, 47, 98] =
        [104, 116, 116, 112, 115, 58, 47, 47, 98] ∧
      rewriteAttr [97] (rewriteAttr [97] [104, 116, 116, 112, 115, 58, 47, 47, 98]) =
        [104, 116, 116, 112, 115, 58, 47, 47, 98] :=
  ⟨by decide, rewriteAttr_idempotent_https [97] [104, 116, 116, 112, 115, 58, 47, 47, 98]
    (by decide)⟩

/-! ## Claims on the request handler and the worker -/

/-- C4: when the cache read for `URL` succeeds with value `v`, `crawler` answers
with status 200 and body `v`, and the whole state (limit, channels, results map,
cache, goroutines in flight) is unchanged: nothing is acquired or dispatched. -/
theorem crawler_cache_hit (s : State) (URL : GoString) (paying : Bool) (v : GoString)
    (h : s.cache URL = some v) :
    crawler s URL paying = (s, Handled.responded 200 v) := by
  simp [crawler, h]

/-- C4 at the store that holds `"b"` for the URL `"a"`. -/
theorem crawler_cache_hit_witness :
    (initState cacheWithA).cache [97] = some [98] ∧
      crawler (initState cacheWithA) [97] false =
        (initState cacheWithA, Handled.responded 200 [98]) :=
  ⟨by decide, crawler_cache_hit (initState cacheWithA) [97] false [98] (by decide)⟩

/-- C9: a worker whose channel holds a slot returns, and it sets `results[URL]`
to `true` exactly when the fetch did not end with `"ERRORS"` and the cache
write succeeded; otherwise the results map is unchanged, and after an exhausted
fetch the cache is unchanged too. -/
theorem workers_results (env : Env) (s : State) (URL : GoString) (c : Nat)
    (h : 0 < occupancy s c) :
    ∃ s', workers env s URL c = some s' ∧
      (if (fetchWithRetryMechanism env URL).2 ≠ strERRORS ∧ env.setOk = true
        then s'.results = Function.update s.results URL (some true)
        else s'.results = s.results) ∧
      ((fetchWithRetryMechanism env URL).2 = strERRORS → s'.cache = s.cache) := by
  unfold workers
  by_cases hf : (fetchWithRetryMechanism env URL).2 = strERRORS
  · simp [hf]
  · by_cases hs : env.setOk = true
    · unfold occupancy at h
      cases hb : (s.heap c).buf with
      | nil => simp [hb] at h
      | cons x rest => simp [hf, hs, State.recv, State.set, hb]
    · simp [hf, hs]

/-- C9 at a successful crawl of `"a"` that holds a slot of channel 0. -/
theorem workers_results_witness :
    0 < occupancy stateOneCrawl 0 ∧
      ∃ s', workers envOk stateOneCrawl [97] 0 = some s' ∧
        (if (fetchWithRetryMechanism envOk [97]).2 ≠ strERRORS ∧ envOk.setOk = true
          then s'.results = Function.update stateOneCrawl.results [97] (some true)
          else s'.results = stateOneCrawl.results) ∧
        ((fetchWithRetryMechanism envOk [97]).2 = strERRORS →
          s'.cache = stateOneCrawl.cache) :=
  ⟨by decide, workers_results envOk stateOneCrawl [97] 0 (by decide)⟩

/-- C1 fails on the code: a worker that holds one slot of channel 0 leaves the
channel with one queued value when the fetch is exhausted and when the cache
write fails; only the successful crawl takes the value out. -/
theorem workers_failure_keeps_slot :
    occupancy stateOneCrawl 0 = 1 ∧
      (fetchWithRetryMechanism envFetchFails [97]).2 = strERRORS ∧
      (workers envFetchFails stateOneCrawl [97] 0).map (fun s => occupancy s 0) = some 1 ∧
      (workers envSetFails stateOneCrawl [97] 0).map (fun s => occupancy s 0) = some 1 ∧
      (workers envOk stateOneCrawl [97] 0).map (fun s => occupancy s 0) = some 0 := by
  decide

/-- C3 fails on the code: after `/set-speed?setWorkerSpeedTo=-1` the limit is
`-7`, and a paying request for the uncached URL `"a"` is not answered with 503:
it puts `"a"` on channel 0 and starts a worker. -/
theorem crawler_negative_limit_dispatches :
    (setSpeedFunc (initState emptyCache) [45, 49] true).limit = -7 ∧
      (setSpeedFunc (initState emptyCache) [45, 49] true).cache [97] = none ∧
      (crawler (setSpeedFunc (initState emptyCache) [45, 49] true) [97] true).2 =
        Handled.dispatched ⟨[97], 0, true⟩ ∧
      occupancy (setSpeedFunc (initState emptyCache) [45, 49] true) 0 = 0 ∧
      occupancy (crawler (setSpeedFunc (initState emptyCache) [45, 49] true) [97] true).1 0 = 1 ∧
      (crawler (setSpeedFunc (initState emptyCache) [45, 49] true) [97] true).1.running.length
        = 1 := by
  decide

/-! ## Claims on the configuration -/

/-- `setWorkerFunc` never assigns `limit`. -/
theorem setWorkerFunc_limit (s : State) (p n : GoString) (ok1 ok2 : Bool) :
    (setWorkerFunc s p n ok1 ok2).state.limit = s.limit := by
  cases ok1 <;> cases ok2 <;> cases h1 : makeChan (Atoi p) <;>
    cases h2 : makeChan (Atoi n) <;>
    simp [setWorkerFunc, Exec.state, State.set, State.alloc, h1, h2]

/-- Whatever way `adminInitializer` ends, `pagesPerHour` is what `Atoi` makes of
the stored speed. -/
theorem adminInitializer_pagesPerHour (s : State) :
    (adminInitializer s).state.pagesPerHour = Atoi (s.get keyWorkerSpeed) := by
  cases h1 : makeChan (Atoi (s.get keyNumPayingWorker)) <;>
    cases h2 : makeChan (Atoi (s.get keyNumNonPayingWorker)) <;>
    simp [adminInitializer, Exec.state, State.alloc, State.get, h1, h2] <;>
    simp_all [State.get]

/-- `setSpeedFunc` recomputes `limit` from the variables it leaves. -/
theorem setSpeedFunc_limit (s : State) (v : GoString) (ok : Bool) :
    (setSpeedFunc s v ok).limit =
      computeLimit (setSpeedFunc s v ok).pagesPerHour (setSpeedFunc s v ok).numNonPayingWorker
        (setSpeedFunc s v ok).numPayingWorker := by
  cases ok <;> simp [setSpeedFunc, State.set]

/-- C5 fails on the code: `/set-workers?setPayingWorkerTo=1&setNonPayingWorkerTo=1`
on the initial state leaves `limit` at 70, while the product of the variables
after the call is 20. -/
theorem setWorkerFunc_stale_limit :
    (setWorkerFunc (initState emptyCache) [49] [49] true true).state.limit = 70 ∧
      computeLimit (setWorkerFunc (initState emptyCache) [49] [49] true true).state.pagesPerHour
        (setWorkerFunc (initState emptyCache) [49] [49] true true).state.numNonPayingWorker
        (setWorkerFunc (initState emptyCache) [49] [49] true true).state.numPayingWorker
        = 20 := by
  decide

/-- C6 fails on the code: with all three keys missing, `adminInitializer`
leaves `numPayingWorker`, `numNonPayingWorker` and `pagesPerHour` at 0 (not at
5, 2 and 10), makes both channels with capacity 0, and sets `limit` to 0. -/
theorem adminInitializer_missing_keys :
    (adminInitializer (initState emptyCache)).state.numPayingWorker = 0 ∧
      (adminInitializer (initState emptyCache)).state.numNonPayingWorker = 0 ∧
      (adminInitializer (initState emptyCache)).state.pagesPerHour = 0 ∧
      ((adminInitializer (initState emptyCache)).state.heap
        (adminInitializer (initState emptyCache)).state.payingWorkers).cap = 0 ∧
      ((adminInitializer (initState emptyCache)).state.heap
        (adminInitializer (initState emptyCache)).state.nonPayingWorkers).cap = 0 ∧
      (adminInitializer (initState emptyCache)).state.limit = 0 := by
  decide

/-- C10: after `setSpeedFunc` with query value `v` and a successful cache write,
`pagesPerHour` is `Atoi v`; a restart against the same store computes the same
`pagesPerHour`; the limit set by `setSpeedFunc`, and the one the next hourly
reset sets, is the product for that value. -/
theorem setSpeedFunc_restart (s : State) (v : GoString) :
    (setSpeedFunc s v true).pagesPerHour = Atoi v ∧
      (restart (setSpeedFunc s v true)).state.pagesPerHour =
        (setSpeedFunc s v true).pagesPerHour ∧
      (setSpeedFunc s v true).limit =
        computeLimit (setSpeedFunc s v true).pagesPerHour
          (setSpeedFunc s v true).numNonPayingWorker (setSpeedFunc s v true).numPayingWorker ∧
      (hourlyReset (setSpeedFunc s v true)).limit =
        computeLimit (Atoi v) s.numNonPayingWorker s.numPayingWorker := by
  refine ⟨by simp [setSpeedFunc, State.set], ?_, setSpeedFunc_limit s v true,
    by simp [hourlyReset, setSpeedFunc, State.set]⟩
  rw [restart, adminInitializer_pagesPerHour]
  simp [setSpeedFunc, State.set, State.get, initState]

/-! ## The channel invariant is kept by every step -/

theorem countP_eraseIdx_add {α : Type} (p : α → Bool) (l : List α) (i : Nat) (w : α)
    (h : l.get? i = some w) :
    l.countP p = (l.eraseIdx i).countP p + (if p w then 1 else 0) := by
  induction l generalizing i with
  | nil => simp at h
  | cons x xs ih =>
    cases i with
    | zero =>
      simp only [List.get?_cons_zero, Option.some.injEq] at h
      subst h
      simp [List.countP_cons]
    | succ j =>
      simp only [List.get?_cons_succ] at h
      have := ih j h
      simp only [List.eraseIdx_cons_succ, List.countP_cons]
      omega

theorem mem_of_mem_eraseIdx {α : Type} (l : List α) (i : Nat) (x : α)
    (h : x ∈ l.eraseIdx i) : x ∈ l := by
  induction l generalizing i with
  | nil => simp at h
  | cons y ys ih =>
    cases i with
    | zero => simp at h; simp [h]
    | succ j =>
      simp only [List.eraseIdx_cons_succ, List.mem_cons] at h ⊢
      rcases h with h | h
      · exact Or.inl h
      · exact Or.inr (ih j h)

theorem holders_zero_of_fresh (s : State) (c : Nat) (hc : s.nextChan ≤ c)
    (h : ∀ w ∈ s.running, w.workerChan < s.nextChan) : holders s c = 0 := by
  unfold holders
  rw [List.countP_eq_zero]
  intro w hw
  have := h w hw
  simp
  omega

theorem InvCore.of_same (s s' : State) (hh : s'.heap = s.heap)
    (hn : s'.nextChan = s.nextChan) (hr : s'.running = s.running)
    (hb : s'.blocked = s.blocked) (hp : s'.payingWorkers = s.payingWorkers)
    (hq : s'.nonPayingWorkers = s.nonPayingWorkers) (hi : InvCore s) : InvCore s' := by
  constructor
  · intro c
    have := hi.hold c
    simpa [holders, occupancy, hh, hr] using this
  · intro c
    have := hi.cap c
    simpa [occupancy, hh] using this
  · intro w hw
    rw [hr] at hw
    rw [hn]
    exact hi.runFresh w hw
  · intro w hw
    rw [hb] at hw
    rw [hn]
    exact hi.blkFresh w hw
  · rw [hp, hn]; exact hi.curP
  · rw [hq, hn]; exact hi.curN

theorem InvCore.send (s s1 : State) (w : Worker) (v : GoString) (blk : List Worker)
    (hi : InvCore s) (hw : w.workerChan < s.nextChan)
    (hs : s.send w.workerChan v = some s1) (hblk : ∀ x ∈ blk, x ∈ s.blocked) :
    InvCore { s1 with blocked := blk, running := s1.running ++ [w] } := by
  unfold State.send at hs
  split at hs
  · rename_i hlt
    simp only [Option.some.injEq] at hs
    subst hs
    constructor
    · intro c
      have h1 := hi.hold c
      simp only [holders, occupancy, List.countP_append] at h1 ⊢
      by_cases hc : c = w.workerChan
      · subst hc
        simp
        omega
      · have hc' : ¬ w.workerChan = c := fun h => hc h.symm
        simp [Function.update_noteq hc, hc']
        omega
    · intro c
      have h2 := hi.cap c
      simp only [occupancy] at h2 ⊢
      by_cases hc : c = w.workerChan
      · subst hc
        simp
        omega
      · simp [Function.update_noteq hc]
        omega
    · intro x hx
      simp only [List.mem_append, List.mem_singleton] at hx
      rcases hx with hx | hx
      · exact hi.runFresh x hx
      · subst hx; exact hw
    · intro x hx
      exact hi.blkFresh x (hblk x hx)
    · exact hi.curP
    · exact hi.curN
  · simp at hs

theorem InvCfg.of_caps (s s' : State) (hh : ∀ c, (s'.heap c).cap = (s.heap c).cap)
    (hp : s'.payingWorkers = s.payingWorkers) (hq : s'.nonPayingWorkers = s.nonPayingWorkers)
    (h1 : s'.numPayingWorker = s.numPayingWorker)
    (h2 : s'.numNonPayingWorker = s.numNonPayingWorker) (hi : InvCfg s) : InvCfg s' := by
  unfold InvCfg at hi ⊢
  rw [hp, hq, h1, h2, hh, hh]
  exact hi

theorem send_frame (s s1 : State) (c : Nat) (v : GoString) (hs : s.send c v = some s1) :
    (∀ c', (s1.heap c').cap = (s.heap c').cap) ∧ s1.payingWorkers = s.payingWorkers ∧
      s1.nonPayingWorkers = s.nonPayingWorkers ∧ s1.numPayingWorker = s.numPayingWorker ∧
      s1.numNonPayingWorker = s.numNonPayingWorker ∧ s1.running = s.running ∧
      s1.blocked = s.blocked ∧ s1.nextChan = s.nextChan := by
  unfold State.send at hs
  split at hs
  · simp only [Option.some.injEq] at hs
    subst hs
    refine ⟨?_, rfl, rfl, rfl, rfl, rfl, rfl, rfl⟩
    intro c'
    by_cases hc : c' = c
    · subst hc; simp
    · simp [Function.update_noteq hc]
  · simp at hs

theorem crawler_inv (s : State) (URL : GoString) (paying : Bool)
    (hi : InvCore s ∧ InvCfg s) :
    InvCore (crawler s URL paying).1 ∧ InvCfg (crawler s URL paying).1 := by
  unfold crawler
  cases hc : s.cache URL with
  | some val => simpa using hi
  | none =>
    by_cases hl : s.limit = 0
    · simpa [hl] using hi
    · simp only [hl, if_false]
      have hfresh : (if paying then s.payingWorkers else s.nonPayingWorkers) < s.nextChan := by
        cases paying
        · simpa using hi.1.curN
        · simpa using hi.1.curP
      cases hs : s.send (if paying then s.payingWorkers else s.nonPayingWorkers) URL with
      | none =>
        simp only
        constructor
        · constructor
          · exact hi.1.hold
          · exact hi.1.cap
          · exact hi.1.runFresh
          · intro x hx
            simp only [List.mem_append, List.mem_singleton] at hx
            rcases hx with hx | hx
            · exact hi.1.blkFresh x hx
            · subst hx; exact hfresh
          · exact hi.1.curP
          · exact hi.1.curN
        · exact InvCfg.of_caps s _ (fun _ => rfl) rfl rfl rfl rfl hi.2
      | some s1 =>
        simp only
        have hf := send_frame s s1 _ URL hs
        constructor
        · have := InvCore.send s s1 ⟨URL, if paying then s.payingWorkers else s.nonPayingWorkers,
            paying⟩ URL s.blocked hi.1 hfresh hs (fun _ hx => hx)
          rw [← hf.2.2.2.2.2.2.1] at this
          exact this
        · exact InvCfg.of_caps s _ hf.1 hf.2.1 hf.2.2.1 hf.2.2.2.1 hf.2.2.2.2.1 hi.2

theorem resume_inv (s s' : State) (i : Nat) (h : resume s i = some s')
    (hi : InvCore s ∧ InvCfg s) : InvCore s' ∧ InvCfg s' := by
  unfold resume at h
  cases hw : s.blocked.get? i with
  | none => rw [hw] at h; simp at h
  | some w =>
    simp only [hw] at h
    cases hs : s.send w.workerChan w.URL with
    | none => simp [hs] at h
    | some s1 =>
      simp only [hs, Option.some.injEq] at h
      subst h
      have hf := send_frame s s1 _ _ hs
      have hmem : w ∈ s.blocked := List.get?_mem hw
      constructor
      · have := InvCore.send s s1 w w.URL (s.blocked.eraseIdx i) hi.1
          (hi.1.blkFresh w hmem) hs (fun x hx => mem_of_mem_eraseIdx _ _ _ hx)
        rw [hf.2.2.2.2.2.2.1]
        exact this
      · exact InvCfg.of_caps s _ hf.1 hf.2.1 hf.2.2.1 hf.2.2.2.1 hf.2.2.2.2.1 hi.2

theorem workers_frame (env : Env) (s s' : State) (URL : GoString) (c : Nat)
    (h : workers env s URL c = some s') :
    s'.running = s.running ∧ s'.blocked = s.blocked ∧ s'.nextChan = s.nextChan ∧
      s'.payingWorkers = s.payingWorkers ∧ s'.nonPayingWorkers = s.nonPayingWorkers ∧
      s'.numPayingWorker = s.numPayingWorker ∧
      s'.numNonPayingWorker = s.numNonPayingWorker ∧
      (s'.heap = s.heap ∨ ∃ x rest, (s.heap c).buf = x :: rest ∧
        s'.heap = Function.update s.heap c ⟨(s.heap c).cap, rest⟩) := by
  unfold workers at h
  by_cases hf : (fetchWithRetryMechanism env URL).2 = strERRORS
  · simp only [hf, if_true, Option.some.injEq] at h
    subst h
    exact ⟨rfl, rfl, rfl, rfl, rfl, rfl, rfl, Or.inl rfl⟩
  · by_cases hs : env.setOk = true
    · simp only [hf, if_false, hs, Bool.not_true, State.recv, State.set] at h
      cases hb : (s.heap c).buf with
      | nil => simp [hb] at h
      | cons x rest =>
        simp only [hb, Bool.false_eq_true, if_false, Option.some.injEq] at h
        subst h
        exact ⟨rfl, rfl, rfl, rfl, rfl, rfl, rfl, Or.inr ⟨x, rest, rfl, rfl⟩⟩
    · simp only [hf, if_false, hs, Bool.not_false, if_true, Option.some.injEq] at h
      subst h
      exact ⟨rfl, rfl, rfl, rfl, rfl, rfl, rfl, Or.inl rfl⟩

theorem finish_inv (s s' : State) (i : Nat) (env : Env) (h : finish s i env = some s')
    (hi : InvCore s ∧ InvCfg s) : InvCore s' ∧ InvCfg s' := by
  unfold finish at h
  cases hw : s.running.get? i with
  | none => rw [hw] at h; simp at h
  | some w =>
    simp only [hw] at h
    cases hs : workers env s w.URL w.workerChan with
    | none => simp [hs] at h
    | some s1 =>
      simp only [hs, Option.some.injEq] at h
      subst h
      obtain ⟨hr, hb, hn, hp, hq, h1, h2, hheap⟩ := workers_frame env s s1 _ _ hs
      have hcount := fun c => countP_eraseIdx_add (fun x : Worker => decide (x.workerChan = c))
        s.running i w hw
      constructor
      · constructor
        · intro c
          have hh := hi.1.hold c
          have hc := hcount c
          simp only [holders, occupancy, hr] at hh ⊢
          rcases hheap with hheap | ⟨x, rest, hbuf, hheap⟩
          · rw [hheap]; omega
          · rw [hheap]
            by_cases hcw : c = w.workerChan
            · subst hcw
              simp only [Function.update_same, decide_True, if_true] at hc ⊢
              rw [hbuf] at hh
              simp only [List.length_cons] at hh
              omega
            · simp only [Function.update_noteq hcw]
              omega
        · intro c
          have hh := hi.1.cap c
          simp only [occupancy] at hh ⊢
          rcases hheap with hheap | ⟨x, rest, hbuf, hheap⟩
          · rw [hheap]; exact hh
          · rw [hheap]
            by_cases hcw : c = w.workerChan
            · subst hcw
              simp only [Function.update_same]
              rw [hbuf] at hh
              simp only [List.length_cons] at hh
              omega
            · simp only [Function.update_noteq hcw]
              exact hh
        · intro x hx
          simp only [hr] at hx
          rw [hn]
          exact hi.1.runFresh x (mem_of_mem_eraseIdx _ _ _ hx)
        · intro x hx
          simp only [hb] at hx
          rw [hn]
          exact hi.1.blkFresh x hx
        · simp only [hp, hn]; exact hi.1.curP
        · simp only [hq, hn]; exact hi.1.curN
      · refine InvCfg.of_caps s _ ?_ hp hq h1 h2 hi.2
        intro c
        rcases hheap with hheap | ⟨x, rest, hbuf, hheap⟩
        · simp only [hheap]
        · simp only [hheap]
          by_cases hcw : c = w.workerChan
          · subst hcw; simp
          · simp [Function.update_noteq hcw]

theorem makeChan_some (n : Int) (ch : Chan) (h : makeChan n = some ch) :
    ch.buf = [] ∧ (ch.cap : Int) = n ∧ acceptedSize n := by
  unfold makeChan at h
  split at h
  · simp at h
  · rename_i hn
    simp only [Option.some.injEq] at h
    subst h
    refine ⟨rfl, ?_, ⟨by omega, by omega⟩⟩
    simp only
    omega

theorem makeChan_none (n : Int) (h : makeChan n = none) : ¬ acceptedSize n := by
  unfold makeChan at h
  split at h
  · rename_i hn
    intro ha
    unfold acceptedSize at ha
    omega
  · simp at h

theorem InvCore.alloc (s s2 : State) (ch : Chan) (hch : ch.buf = [])
    (hh : s2.heap = Function.update s.heap s.nextChan ch)
    (hn : s2.nextChan = s.nextChan + 1) (hr : s2.running = s.running)
    (hb : s2.blocked = s.blocked)
    (hp : s2.payingWorkers = s.payingWorkers ∨ s2.payingWorkers = s.nextChan)
    (hq : s2.nonPayingWorkers = s.nonPayingWorkers ∨ s2.nonPayingWorkers = s.nextChan)
    (hi : InvCore s) : InvCore s2 := by
  constructor
  · intro c
    by_cases hc : c = s.nextChan
    · have := holders_zero_of_fresh s c (by omega) hi.runFresh
      simp only [holders, hr] at this ⊢
      omega
    · have := hi.hold c
      simpa [holders, occupancy, hr, hh, Function.update_noteq hc] using this
  · intro c
    by_cases hc : c = s.nextChan
    · subst hc
      simp [occupancy, hh, hch]
    · have := hi.cap c
      simpa [occupancy, hh, Function.update_noteq hc] using this
  · intro w hw
    rw [hr] at hw
    have := hi.runFresh w hw
    omega
  · intro w hw
    rw [hb] at hw
    have := hi.blkFresh w hw
    omega
  · have := hi.curP
    rcases hp with hp | hp <;> omega
  · have := hi.curN
    rcases hq with hq | hq <;> omega

theorem InvCore.initState (cache : GoString → Option GoString) : InvCore (initState cache) := by
  constructor
  · intro c; simp [holders, SendX.initState]
  · intro c
    simp only [occupancy, SendX.initState]
    split_ifs <;> simp
  · intro w hw; simp [SendX.initState] at hw
  · intro w hw; simp [SendX.initState] at hw
  · simp [SendX.initState]
  · simp [SendX.initState]

theorem setWorkerFunc_inv (s s' : State) (p n : GoString) (ok1 ok2 : Bool)
    (h : setWorkerFunc s p n ok1 ok2 = .done s' ∨ setWorkerFunc s p n ok1 ok2 = .panicked s')
    (hi : InvCore s) : InvCore s' ∧ InvCfg s' := by
  cases ok1 <;> cases ok2
  · simp [setWorkerFunc] at h
  · simp [setWorkerFunc] at h
  · simp [setWorkerFunc] at h
  cases h1 : makeChan (Atoi p) with
  | none =>
    simp only [setWorkerFunc, State.set, h1] at h
    have hneg := makeChan_none _ h1
    simp at h
    subst h
    refine ⟨InvCore.of_same s _ rfl rfl rfl rfl rfl rfl hi, ?_⟩
    intro h0
    exact absurd h0 hneg
  | some c1 =>
    obtain ⟨hb1, hc1, _⟩ := makeChan_some _ _ h1
    have hmid : InvCore { (s.alloc c1).1 with payingWorkers := (s.alloc c1).2 } :=
      InvCore.alloc s _ c1 hb1 rfl rfl rfl rfl (Or.inr rfl) (Or.inl rfl) hi
    cases h2 : makeChan (Atoi n) with
    | none =>
      simp only [setWorkerFunc, State.set, State.alloc, h1, h2] at h
      have hneg := makeChan_none _ h2
      simp at h
      subst h
      refine ⟨InvCore.of_same ({ (s.alloc c1).1 with payingWorkers := (s.alloc c1).2 }) _ rfl rfl rfl rfl rfl rfl hmid, ?_⟩
      intro _ h0
      exact absurd h0 hneg
    | some c2 =>
      obtain ⟨hb2, hc2, _⟩ := makeChan_some _ _ h2
      simp only [setWorkerFunc, State.set, State.alloc, h1, h2] at h
      simp at h
      subst h
      refine ⟨InvCore.alloc ({ (s.alloc c1).1 with payingWorkers := (s.alloc c1).2 }) _ c2 hb2 rfl rfl rfl rfl
        (Or.inl rfl) (Or.inr rfl) hmid, ?_⟩
      intro _ _
      simp [hc1, hc2]

theorem adminInitializer_inv (s s' : State) (h : adminInitializer s = .done s')
    (hi : InvCore s) : InvCore s' ∧ InvCfg s' := by
  cases h1 : makeChan (Atoi (s.get keyNumPayingWorker)) with
  | none => simp [adminInitializer, h1] at h
  | some c1 =>
    obtain ⟨hb1, hc1, _⟩ := makeChan_some _ _ h1
    have hmid : InvCore { (s.alloc c1).1 with payingWorkers := (s.alloc c1).2 } :=
      InvCore.alloc s _ c1 hb1 rfl rfl rfl rfl (Or.inr rfl) (Or.inl rfl) hi
    cases h2 : makeChan (Atoi (s.get keyNumNonPayingWorker)) with
    | none =>
      simp only [adminInitializer, State.alloc, State.get] at h
      simp only [State.get] at h1 h2
      simp [h1, h2] at h
    | some c2 =>
      obtain ⟨hb2, hc2, _⟩ := makeChan_some _ _ h2
      simp only [adminInitializer, State.alloc, State.get] at h
      simp only [State.get] at h1 h2 hc1 hc2
      simp [h1, h2] at h
      subst h
      refine ⟨InvCore.alloc ({ (s.alloc c1).1 with payingWorkers := (s.alloc c1).2 }) _ c2 hb2 rfl rfl rfl rfl
        (Or.inl rfl) (Or.inr rfl) hmid, ?_⟩
      intro _ _
      simp [hc1, hc2]

theorem boot_inv (cache : GoString → Option GoString) (s0 : State)
    (h : boot cache = some s0) : InvCore s0 ∧ InvCfg s0 := by
  unfold boot at h
  cases ha : adminInitializer (initState cache) with
  | done s =>
    simp [ha] at h
    subst h
    exact adminInitializer_inv _ _ ha (InvCore.initState cache)
  | panicked s => simp [ha] at h
  | fatal s => simp [ha] at h

theorem step_inv (s s' : State) (t : Step) (h : step s t = some s')
    (hi : InvCore s ∧ InvCfg s) : InvCore s' ∧ InvCfg s' := by
  cases t with
  | request URL paying =>
    simp only [step, Option.some.injEq] at h
    subst h
    exact crawler_inv s URL paying hi
  | resume i => exact resume_inv s s' i h hi
  | finish i env => exact finish_inv s s' i env h hi
  | poll URL =>
    simp only [step, Option.some.injEq] at h
    subst h
    unfold crawlerPoll
    split
    · split
      · exact ⟨InvCore.of_same s _ rfl rfl rfl rfl rfl rfl hi.1,
          InvCfg.of_caps s _ (fun _ => rfl) rfl rfl rfl rfl hi.2⟩
      · exact hi
    · exact hi
  | setWorkers p n ok1 ok2 =>
    simp only [step] at h
    cases he : setWorkerFunc s p n ok1 ok2 with
    | done s1 =>
      simp only [he, Option.some.injEq] at h
      subst h
      exact setWorkerFunc_inv s _ p n ok1 ok2 (Or.inl he) hi.1
    | panicked s1 =>
      simp only [he, Option.some.injEq] at h
      subst h
      exact setWorkerFunc_inv s _ p n ok1 ok2 (Or.inr he) hi.1
    | fatal s1 => simp [he] at h
  | setSpeed v ok =>
    simp only [step, Option.some.injEq] at h
    subst h
    cases ok
    · exact ⟨InvCore.of_same s _ rfl rfl rfl rfl rfl rfl hi.1,
        InvCfg.of_caps s _ (fun _ => rfl) rfl rfl rfl rfl hi.2⟩
    · exact ⟨InvCore.of_same s _ rfl rfl rfl rfl rfl rfl hi.1,
        InvCfg.of_caps s _ (fun _ => rfl) rfl rfl rfl rfl hi.2⟩
  | tick =>
    simp only [step, Option.some.injEq] at h
    subst h
    exact ⟨InvCore.of_same s _ rfl rfl rfl rfl rfl rfl hi.1,
      InvCfg.of_caps s _ (fun _ => rfl) rfl rfl rfl rfl hi.2⟩

theorem run_inv (tr : List Step) (s s' : State) (h : run s tr = some s')
    (hi : InvCore s ∧ InvCfg s) : InvCore s' ∧ InvCfg s' := by
  induction tr generalizing s with
  | nil =>
    simp only [run, Option.some.injEq] at h
    subst h
    exact hi
  | cons t ts ih =>
    simp only [run] at h
    cases hs : step s t with
    | none => simp [hs] at h
    | some s1 =>
      simp only [hs] at h
      exact ih s1 h (step_inv s s1 t hs hi)

theorem inFlightOn_le_holders (s : State) (paying : Bool) (c : Nat) :
    inFlightOn s paying c ≤ holders s c := by
  unfold inFlightOn holders
  apply List.countP_mono_left
  intro w _ hw
  simp only [decide_eq_true_eq] at hw ⊢
  exact hw.2

/-- A size above `maxChanSize`: `/set-workers?setPayingWorkerTo=9223372036854775807`
with `setNonPayingWorkerTo=1` sets `numPayingWorker` to `2^63 - 1`, then `make`
panics, and the paying channel stays the one of capacity 2. -/
theorem setWorkerFunc_size_out_of_range :
    (setWorkerFunc bootedState strMaxInt64 [49] true true).isPanicked = true ∧
      (setWorkerFunc bootedState strMaxInt64 [49] true true).state.numPayingWorker
        = 2 ^ 63 - 1 ∧
      (setWorkerFunc bootedState strMaxInt64 [49] true true).state.numNonPayingWorker = 1 ∧
      (setWorkerFunc bootedState strMaxInt64 [49] true true).state.payingWorkers
        = bootedState.payingWorkers ∧
      ((setWorkerFunc bootedState strMaxInt64 [49] true true).state.heap
        (setWorkerFunc bootedState strMaxInt64 [49] true true).state.payingWorkers).cap = 2 ∧
      ¬ ((setWorkerFunc bootedState strMaxInt64 [49] true true).state.numPayingWorker
        ≤ (maxChanSize : Int)) := by
  decide

/-! ## Claim on the admission pools -/

/-- C2, as stated, fails: on a store configured with 2 paying workers, after two
paying requests, a `/set-workers` call that sets both classes to 1, and one
more paying request, three paying crawls are in flight while the configured
capacity `numPayingWorker` is 1. -/
theorem inFlight_exceeds_configured_after_resize :
    boot cacheConfigured = some bootedState ∧
      run bootedState traceResize = some resizedState ∧
      inFlight resizedState true = 3 ∧ configured resizedState true = 1 ∧
      ¬ ((inFlight resizedState true : Int) ≤ configured resizedState true) :=
  ⟨rfl, rfl, by decide, by decide, by decide⟩

/-- C2, amended: in every state reachable from the state in which the server
starts serving, for each class the crawls of that class that have not exited
and hold a slot of the class's current channel are at most the values queued on
that channel, which are at most its capacity; and whenever both configured
numbers are sizes that `make(chan string, n)` accepts (from 0 to the largest
channel size of the run time) that capacity is the class's configured number. -/
theorem inFlightOn_le_capacity (cache : GoString → Option GoString) (s0 s : State)
    (tr : List Step) (paying : Bool) (hb : boot cache = some s0)
    (hr : run s0 tr = some s) :
    inFlightOn s paying (classChan s paying) ≤ occupancy s (classChan s paying) ∧
      occupancy s (classChan s paying) ≤ (s.heap (classChan s paying)).cap ∧
      (acceptedSize s.numPayingWorker ∧ acceptedSize s.numNonPayingWorker →
        ((s.heap (classChan s paying)).cap : Int) = configured s paying) := by
  have hi := run_inv tr s0 s hr (boot_inv cache s0 hb)
  refine ⟨le_trans (inFlightOn_le_holders s paying _) (hi.1.hold _), hi.1.cap _, ?_⟩
  intro h
  have := hi.2 h.1 h.2
  cases paying
  · simpa [classChan, configured] using this.2
  · simpa [classChan, configured] using this.1

/-- C2, amended, at the paying class after `traceResize`. -/
theorem inFlightOn_le_capacity_witness :
    boot cacheConfigured = some bootedState ∧
      run bootedState traceResize = some resizedState ∧
      inFlightOn resizedState true (classChan resizedState true) ≤
        occupancy resizedState (classChan resizedState true) ∧
      occupancy resizedState (classChan resizedState true) ≤
        (resizedState.heap (classChan resizedState true)).cap ∧
      (acceptedSize resizedState.numPayingWorker ∧
          acceptedSize resizedState.numNonPayingWorker →
        ((resizedState.heap (classChan resizedState true)).cap : Int) =
          configured resizedState true) :=
  ⟨rfl, rfl, inFlightOn_le_capacity cacheConfigured bootedState resizedState traceResize true
    rfl rfl⟩

end SendX
